import Mathlib

/-!
Shallow embedding of the Block-Blast clone game core (src/index.tsx).

Grids are 8x8 matrices of naturals (0 = empty, v > 0 = colorIndex + 1).
JavaScript array indexing is modelled by `jsGet` (out-of-range or negative
index yields `none`, i.e. `undefined`); `canPlaceBlock` returns
`Except Unit Bool`, where `Except.error ()` models the TypeError thrown by
`currentGrid[newRow][newCol]` when `currentGrid[newRow]` is `undefined`.
The React state handlers are embedded as pure transition functions on a
`GameState`, with the 300ms clear-animation delay collapsed (the engine
semantics are unaffected by the delay).
-/

def GRID_SIZE : Nat := 8

abbrev Grid := List (List Nat)

abbrev Shape := List (List Nat)

structure Block where
  shape : Shape
  colorIndex : Nat
  id : Nat
deriving DecidableEq, Repr

/-- `createEmptyGrid`: an 8x8 grid of zeros. -/
def createEmptyGrid : Grid := List.replicate GRID_SIZE (List.replicate GRID_SIZE 0)

/-- JavaScript array read `l[i]`: `none` models `undefined` (negative or
out-of-range index). -/
def jsGet (l : List α) (i : Int) : Option α :=
  if 0 ≤ i then l[i.toNat]? else none

/-- `block.shape[r][c]` for natural loop indices; missing entries are
`undefined`, which is falsy, modelled as 0. -/
def shapeCell (s : Shape) (r c : Nat) : Nat :=
  ((s[r]?.getD [])[c]?).getD 0

/-- `block.shape[0].length`. -/
def shapeWidth (s : Shape) : Nat := (s[0]?.getD []).length

/-- The row-major loop domain `r < shape.length, c < shape[0].length` of the
source's nested `for` loops. -/
def shapeIndices (s : Shape) : List (Nat × Nat) :=
  (List.range s.length).flatMap fun r => (List.range (shapeWidth s)).map fun c => (r, c)

/-- Well-formed grid: 8 rows of length 8. -/
def gridWF (g : Grid) : Bool :=
  g.length == GRID_SIZE && g.all (fun row => row.length == GRID_SIZE)

/-- Rectangular shape: every row has the width of the first row. -/
def shapeWF (s : Shape) : Bool :=
  s.all (fun row => row.length == shapeWidth s)

/-- Whether the shape cell at `p` is truthy (`if (block.shape[r][c])`). -/
def filledB (s : Shape) (p : Nat × Nat) : Bool :=
  shapeCell s p.1 p.2 != 0

/-- The body of `canPlaceBlock`'s nested loops, iterating the remaining cell
indices in source order.  For a filled shape cell at `(r,c)`:
`newRow >= GRID_SIZE || newCol >= GRID_SIZE` returns `false`;
otherwise `currentGrid[newRow][newCol]` is evaluated — if
`currentGrid[newRow]` is `undefined` this throws (`Except.error`), if the
inner read is `undefined` it is falsy and the loop continues, and a
non-zero value returns `false`. -/
def checkCells (s : Shape) (row col : Int) (g : Grid) : List (Nat × Nat) → Except Unit Bool
  | [] => Except.ok true
  | p :: rest =>
    if filledB s p then
      if (GRID_SIZE : Int) ≤ row + p.1 ∨ (GRID_SIZE : Int) ≤ col + p.2 then Except.ok false
      else
        match jsGet g (row + p.1) with
        | none => Except.error ()
        | some rowList =>
          match jsGet rowList (col + p.2) with
          | none => checkCells s row col g rest
          | some v => if v ≠ 0 then Except.ok false else checkCells s row col g rest
    else checkCells s row col g rest

/-- `canPlaceBlock(block, row, col, currentGrid)` from src/index.tsx
(lines 191–209), with JavaScript number arguments modelled as `Int`. -/
def canPlaceBlock (b : Block) (row col : Int) (g : Grid) : Except Unit Bool :=
  checkCells b.shape row col g (shapeIndices b.shape)

instance : DecidableEq (Except Unit Bool) := fun a b =>
  match a, b with
  | Except.ok x, Except.ok y =>
    if h : x = y then isTrue (by rw [h]) else isFalse (fun hh => by cases hh; exact h rfl)
  | Except.error _, Except.error _ => isTrue rfl
  | Except.ok _, Except.error _ => isFalse (fun h => by cases h)
  | Except.error _, Except.ok _ => isFalse (fun h => by cases h)

/-- Truthiness of `canPlaceBlock`'s result as used by the callers
(`if (canPlaceBlock(...))`), for in-range gesture coordinates where no
exception can occur. -/
def canPlaceB (b : Block) (row col : Nat) (g : Grid) : Bool :=
  match canPlaceBlock b row col g with
  | Except.ok t => t
  | Except.error _ => false

/-- The coordinates `{r: newRow, c: newCol}` pushed into `placedCoords` by
the placement loop of `handleDrop` (src/index.tsx lines 324–338). -/
def placedCells (s : Shape) (row col : Int) : List (Int × Int) :=
  ((shapeIndices s).filter (filledB s)).map fun p => (row + p.1, col + p.2)

/-- `placementPoints`: one point per filled cell written by the loop. -/
def countFilled (s : Shape) : Nat :=
  ((shapeIndices s).filter (filledB s)).length

/-- Grid cell read `grid[r][c]` at `Int` coordinates, with `undefined`
collapsing to 0 (falsy). -/
def cellAtI (g : Grid) (r c : Int) : Nat :=
  (((jsGet g r).getD [])[c.toNat]?).getD 0

/-- Grid cell read at natural render coordinates. -/
def cellAt (g : Grid) (r c : Nat) : Nat :=
  ((g[r]?.getD [])[c]?).getD 0

/-- `newGrid[r][c] = v` on a copied grid. -/
def setCell (g : Grid) (r c : Nat) (v : Nat) : Grid :=
  g.set r ((g[r]?.getD []).set c v)

/-- The placement loop of `handleDrop`: write `colorIndex + 1` into every
filled absolute cell. -/
def placeGrid (b : Block) (row col : Nat) (g : Grid) : Grid :=
  (shapeIndices b.shape).foldl
    (fun acc p =>
      if filledB b.shape p then setCell acc (row + p.1) (col + p.2) (b.colorIndex + 1) else acc)
    g

/-- `newGrid[i].every(cell => cell > 0)`. -/
def rowFullB (row : List Nat) : Bool :=
  row.all fun cell => decide (0 < cell)

/-- `rowsToClear`: indices `i < 8` whose row is fully occupied. -/
def rowsToClear (g : Grid) : List Nat :=
  (List.range GRID_SIZE).filter fun i => rowFullB (g[i]?.getD [])

/-- `newGrid.every(row => row[i] > 0)`. -/
def colFullB (g : Grid) (i : Nat) : Bool :=
  g.all fun row => decide (0 < (row[i]?.getD 0))

/-- `colsToClear`: indices `i < 8` whose column is fully occupied. -/
def colsToClear (g : Grid) : List Nat :=
  (List.range GRID_SIZE).filter fun i => colFullB g i

/-- The clearing step of `handleDrop` (src/index.tsx lines 366–369): replace
every listed row with zeros, then zero the listed column in every row. -/
def clearLines (g : Grid) (rows cols : List Nat) : Grid :=
  let g1 := rows.foldl (fun acc r => acc.set r (List.replicate GRID_SIZE 0)) g
  cols.foldl (fun acc c => acc.map fun row => row.set c 0) g1

/-- `checkGameOver(currentGrid, currentBlocks)` (src/index.tsx lines
211–225): an empty hand is non-terminal; otherwise terminal iff no block
can be placed at any of the 64 origins. -/
def checkGameOver (g : Grid) (bs : List Block) : Bool :=
  if bs.length = 0 then false
  else
    !(bs.any fun b =>
      (List.range GRID_SIZE).any fun r =>
        (List.range GRID_SIZE).any fun c => canPlaceB b r c g)

structure GameState where
  grid : Grid
  blocks : List Block
  score : Nat
  gameOver : Bool
  hammers : Int
  hammerMode : Bool
  clearing : Bool
deriving DecidableEq, Repr

/-- `updateScoreAndHammers(pointsToAdd)`: returns the new score and the new
hammer count; a hammer is granted per 500-point threshold crossed. -/
def updateSH (score : Nat) (hammers : Int) (pts : Nat) : Nat × Int :=
  let newScore := score + pts
  let oldThreshold := score / 500
  let newThreshold := newScore / 500
  (newScore,
   if oldThreshold < newThreshold then hammers + (newThreshold - oldThreshold : Nat) else hammers)

/-- `handleDrop(row, col)` with the dragged block and the freshly generated
replacement hand passed explicitly, and the 300ms clear animation collapsed.
Mirrors src/index.tsx lines 306–397: guard, placement loop, first score
update, hand filtering, line detection, clearing, second score update,
refill, and game-over check (which only ever sets the flag). -/
def handleDrop (b : Block) (row col : Nat) (fresh : List Block) (s : GameState) : GameState :=
  if !(canPlaceB b row col s.grid) || s.hammerMode || s.clearing then s
  else
    let newGrid := placeGrid b row col s.grid
    let sh1 := updateSH s.score s.hammers (countFilled b.shape)
    let nextBlocks := s.blocks.filter fun bb => bb.id ≠ b.id
    let shouldGenerate := nextBlocks.length = 0
    let rows := rowsToClear newGrid
    let cols := colsToClear newGrid
    let linesCleared := rows.length + cols.length
    let gridAfterClears := clearLines newGrid rows cols
    let sh2 :=
      if 0 < linesCleared then updateSH sh1.1 sh1.2 (linesCleared * 10 * linesCleared) else sh1
    let blocks2 := if shouldGenerate then fresh else nextBlocks
    { grid := gridAfterClears
      blocks := blocks2
      score := sh2.1
      gameOver := s.gameOver || checkGameOver gridAfterClears blocks2
      hammers := sh2.2
      hammerMode := s.hammerMode
      clearing := false }

/-- `handleHammerClick`: toggles hammer mode only while `hammers > 0`. -/
def handleHammerClick (s : GameState) : GameState :=
  if 0 < s.hammers then { s with hammerMode := !s.hammerMode } else s

/-- `handleGridCellClick(row, col)` (src/index.tsx lines 408–419). -/
def handleGridCellClick (row col : Nat) (s : GameState) : GameState :=
  if s.hammerMode && decide (0 < cellAt s.grid row col) then
    { s with
      grid := setCell s.grid row col 0
      hammers := s.hammers - 1
      hammerMode := false }
  else if s.hammerMode then { s with hammerMode := false }
  else s

/-- `resetGame` (src/index.tsx lines 174–185), with the freshly generated
hand passed explicitly. -/
def initState (fresh : List Block) : GameState :=
  { grid := createEmptyGrid
    blocks := fresh
    score := 0
    gameOver := false
    hammers := 1
    hammerMode := false
    clearing := false }

/-- User gestures forwarded by the presentation layer; random draws
(`generateBlocks()`) are supplied as gesture data. -/
inductive Gesture where
  | drop (b : Block) (row col : Nat) (fresh : List Block)
  | hammerToggle
  | cellClick (row col : Nat)
  | restart (fresh : List Block)
deriving DecidableEq, Repr

/-- One gesture dispatch. -/
def step (s : GameState) (g : Gesture) : GameState :=
  match g with
  | Gesture.drop b row col fresh => handleDrop b row col fresh s
  | Gesture.hammerToggle => handleHammerClick s
  | Gesture.cellClick row col => handleGridCellClick row col s
  | Gesture.restart fresh => initState fresh

/-- States reachable from a fresh game through gesture dispatches. -/
inductive Reachable : GameState → Prop where
  | init (fresh : List Block) : Reachable (initState fresh)
  | step (s : GameState) (g : Gesture) : Reachable s → Reachable (step s g)

/-- The shape catalog `BLOCK_SHAPES` (src/index.tsx lines 16–29), as
(shape, colorIndex) pairs in source order. -/
def BLOCK_SHAPES : List (Shape × Nat) :=
  [([[1]], 0),
   ([[1, 1]], 1),
   ([[1], [1]], 1),
   ([[1, 1, 1]], 2),
   ([[1], [1], [1]], 2),
   ([[1, 1], [1, 1]], 3),
   ([[1, 0], [1, 1]], 4),
   ([[1, 1], [1, 0]], 4),
   ([[1, 1], [0, 1]], 4),
   ([[1, 1, 1], [0, 1, 0]], 5),
   ([[1, 1, 1], [1, 1, 1], [1, 1, 1]], 6)]

/-- The 1x1 catalog block (concrete instance for witnesses). -/
def oneByOne : Block := { shape := [[1]], colorIndex := 0, id := 0 }

/-- The 3x3 catalog block (concrete instance for witnesses). -/
def threeByThree : Block :=
  { shape := [[1, 1, 1], [1, 1, 1], [1, 1, 1]], colorIndex := 6, id := 1 }

/-- Concrete grid whose first row has seven occupied cells and an empty
cell at column 7. -/
def rowSevenGrid : Grid :=
  [1, 1, 1, 1, 1, 1, 1, 0] :: List.replicate 7 (List.replicate 8 0)

/-- Concrete active state used as a witness input: placing the 1x1 block at
`(0,7)` completes row 0. -/
def demoState : GameState :=
  { grid := rowSevenGrid
    blocks := [oneByOne]
    score := 0
    gameOver := false
    hammers := 1
    hammerMode := false
    clearing := false }

/-- Concrete state with the game-over flag set but a placeable block in
hand and positive hammer count. -/
def overState : GameState :=
  { grid := createEmptyGrid
    blocks := [oneByOne]
    score := 120
    gameOver := true
    hammers := 1
    hammerMode := false
    clearing := false }

/-- Concrete state with hammer mode active, an occupied cell at `(0,0)`,
and a legal placement available at `(0,7)`. -/
def hammerState : GameState :=
  { grid := rowSevenGrid
    blocks := [oneByOne]
    score := 7
    gameOver := false
    hammers := 2
    hammerMode := true
    clearing := false }

/-- Concrete state with zero hammers. -/
def zeroHammerState : GameState :=
  { grid := rowSevenGrid
    blocks := [oneByOne]
    score := 3
    gameOver := false
    hammers := 0
    hammerMode := false
    clearing := false }

example : canPlaceBlock oneByOne 0 0 createEmptyGrid = Except.ok true := by decide
example : canPlaceBlock oneByOne 0 (-1) createEmptyGrid = Except.ok true := by decide
example : canPlaceBlock oneByOne (-1) 0 createEmptyGrid = Except.error () := by decide
example : canPlaceBlock oneByOne 8 0 createEmptyGrid = Except.ok false := by decide
example : canPlaceBlock threeByThree 6 6 createEmptyGrid = Except.ok false := by decide

theorem jsGet_of_nonneg {α : Type} {l : List α} {i : Int} (h : 0 ≤ i) :
    jsGet l i = l[i.toNat]? := by
  unfold jsGet
  rw [if_pos h]

theorem jsGet_eq_none_iff {α : Type} {l : List α} {i : Int} :
    jsGet l i = none ↔ i < 0 ∨ (l.length : Int) ≤ i := by
  by_cases h : 0 ≤ i
  · rw [jsGet_of_nonneg h, List.getElem?_eq_none_iff]
    omega
  · unfold jsGet
    rw [if_neg h]
    simp
    omega

theorem jsGet_eq_some {α : Type} {l : List α} {i : Int} {a : α} (h : jsGet l i = some a) :
    0 ≤ i ∧ i.toNat < l.length ∧ l[i.toNat]? = some a := by
  by_cases h0 : 0 ≤ i
  · rw [jsGet_of_nonneg h0] at h
    refine ⟨h0, ?_, h⟩
    rw [List.getElem?_eq_some_iff] at h
    exact h.1
  · unfold jsGet at h
    rw [if_neg h0] at h
    cases h

theorem gridWF_iff {g : Grid} :
    gridWF g = true ↔ g.length = 8 ∧ ∀ row ∈ g, row.length = 8 := by
  simp [gridWF, GRID_SIZE, List.all_eq_true]

/-- Key characterization: with a well-formed grid, `checkCells` succeeds with
`true` iff every filled cell in the remaining index list has absolute row in
`[0, 8)`, absolute column `< 8`, and — whenever the absolute column is also
nonnegative — an empty grid cell.  Negative columns are *not* rejected
(the JavaScript read yields falsy `undefined`), and a negative absolute row
makes the source throw instead of returning. -/
theorem checkCells_eq_ok_true {s : Shape} {row col : Int} {g : Grid} (hg : gridWF g = true)
    (L : List (Nat × Nat)) :
    checkCells s row col g L = Except.ok true ↔
      ∀ p ∈ L, filledB s p = true →
        row + p.1 < (GRID_SIZE : Int) ∧ col + p.2 < (GRID_SIZE : Int) ∧ 0 ≤ row + p.1 ∧
          (0 ≤ col + p.2 → cellAtI g (row + p.1) (col + p.2) = 0) := by
  obtain ⟨hlen, hrows⟩ := gridWF_iff.mp hg
  have hGS : GRID_SIZE = 8 := rfl
  induction L with
  | nil => simp [checkCells]
  | cons p rest ih =>
    rw [List.forall_mem_cons]
    by_cases hf : filledB s p = true
    · by_cases hb : (GRID_SIZE : Int) ≤ row + p.1 ∨ (GRID_SIZE : Int) ≤ col + p.2
      · simp only [checkCells, if_pos hf, if_pos hb]
        constructor
        · intro h
          exact absurd h (by decide)
        · intro h
          obtain ⟨h1, h2, -⟩ := h.1 hf
          rcases hb with hb | hb <;> omega
      · simp only [checkCells, if_pos hf, if_neg hb]
        push_neg at hb
        split
        · next heq =>
          rw [jsGet_eq_none_iff] at heq
          constructor
          · intro h
            exact absurd h (by decide)
          · intro h
            have h3 := (h.1 hf).2.2.1
            omega
        · next rowList heq =>
          obtain ⟨hr0, hridx, hrq⟩ := jsGet_eq_some heq
          have hrmem : rowList ∈ g := by
            obtain ⟨hlt, hv⟩ := List.getElem?_eq_some_iff.mp hrq
            rw [← hv]
            exact List.getElem_mem hlt
          have hrlen : rowList.length = 8 := hrows _ hrmem
          split
          · next heq2 =>
            rw [jsGet_eq_none_iff] at heq2
            have hc0 : col + (p.2 : Int) < 0 := by omega
            have hp : row + (p.1 : Int) < (GRID_SIZE : Int) ∧
                col + (p.2 : Int) < (GRID_SIZE : Int) ∧ 0 ≤ row + (p.1 : Int) ∧
                (0 ≤ col + (p.2 : Int) → cellAtI g (row + (p.1 : Int)) (col + (p.2 : Int)) = 0) :=
              ⟨hb.1, hb.2, hr0, fun hcc => absurd hcc (by omega)⟩
            exact ⟨fun h => ⟨fun _ => hp, ih.mp h⟩, fun h => ih.mpr h.2⟩
          · next v heq2 =>
            obtain ⟨hc0, hcidx, hcq⟩ := jsGet_eq_some heq2
            have hcell : cellAtI g (row + (p.1 : Int)) (col + (p.2 : Int)) = v := by
              unfold cellAtI
              rw [jsGet_of_nonneg hr0, hrq]
              simp only [Option.getD_some]
              rw [hcq]
              simp only [Option.getD_some]
            by_cases hv : v ≠ 0
            · rw [if_pos hv]
              constructor
              · intro h
                exact absurd h (by decide)
              · intro h
                have := (h.1 hf).2.2.2 hc0
                rw [hcell] at this
                exact absurd this hv
            · rw [if_neg hv]
              push_neg at hv
              have hp : row + (p.1 : Int) < (GRID_SIZE : Int) ∧
                  col + (p.2 : Int) < (GRID_SIZE : Int) ∧ 0 ≤ row + (p.1 : Int) ∧
                  (0 ≤ col + (p.2 : Int) → cellAtI g (row + (p.1 : Int)) (col + (p.2 : Int)) = 0) :=
                ⟨hb.1, hb.2, hr0, fun _ => by rw [hcell]; exact hv⟩
              exact ⟨fun h => ⟨fun _ => hp, ih.mp h⟩, fun h => ih.mpr h.2⟩
    · simp only [checkCells, if_neg hf]
      exact ⟨fun h => ⟨fun hff => absurd hff hf, ih.mp h⟩, fun h => ih.mpr h.2⟩

theorem mem_shapeIndices {s : Shape} {p : Nat × Nat} :
    p ∈ shapeIndices s ↔ p.1 < s.length ∧ p.2 < shapeWidth s := by
  cases p with
  | mk r c =>
    simp only [shapeIndices, List.mem_flatMap, List.mem_map, List.mem_range]
    constructor
    · rintro ⟨a, ha, b, hb, hab⟩
      cases hab
      exact ⟨ha, hb⟩
    · rintro ⟨hr, hc⟩
      exact ⟨r, hr, c, hc, rfl⟩

theorem filled_lt {s : Shape} (hs : shapeWF s = true) {r c : Nat}
    (h : shapeCell s r c ≠ 0) : r < s.length ∧ c < shapeWidth s := by
  unfold shapeCell at h
  cases hq : s[r]? with
  | none =>
    rw [hq] at h
    simp at h
  | some rowL =>
    rw [hq] at h
    simp only [Option.getD_some] at h
    obtain ⟨hr, hval⟩ := List.getElem?_eq_some_iff.mp hq
    have hmem : rowL ∈ s := by
      rw [← hval]
      exact List.getElem_mem hr
    have hw := List.all_eq_true.mp hs _ hmem
    rw [beq_iff_eq] at hw
    have hc : c < rowL.length := by
      by_contra hc
      rw [List.getElem?_eq_none_iff.mpr (by omega)] at h
      simp at h
    exact ⟨hr, by omega⟩

theorem cellAtI_natCast (g : Grid) (r c : Nat) : cellAtI g r c = cellAt g r c := by
  unfold cellAtI cellAt
  rw [jsGet_of_nonneg (by omega : (0 : Int) ≤ (r : Int))]
  simp [Int.toNat_natCast]

/-- Full characterization of `canPlaceBlock` over arbitrary integer origins
and well-formed grids. -/
theorem canPlaceBlock_eq_ok_true {b : Block} {row col : Int} {g : Grid}
    (hg : gridWF g = true) (hs : shapeWF b.shape = true) :
    canPlaceBlock b row col g = Except.ok true ↔
      ∀ r c : Nat, shapeCell b.shape r c ≠ 0 →
        row + r < (GRID_SIZE : Int) ∧ col + c < (GRID_SIZE : Int) ∧ 0 ≤ row + r ∧
          (0 ≤ col + c → cellAtI g (row + r) (col + c) = 0) := by
  unfold canPlaceBlock
  rw [checkCells_eq_ok_true hg]
  constructor
  · intro h r c hrc
    have hm : (r, c) ∈ shapeIndices b.shape := mem_shapeIndices.mpr (filled_lt hs hrc)
    exact h (r, c) hm (by simpa [filledB, bne_iff_ne] using hrc)
  · intro h p hp hf
    exact h p.1 p.2 (by simpa [filledB, bne_iff_ne] using hf)

theorem mem_placedCells {s : Shape} {row col : Int} {q : Int × Int} :
    q ∈ placedCells s row col ↔
      ∃ p ∈ shapeIndices s, filledB s p = true ∧ q = (row + p.1, col + p.2) := by
  simp only [placedCells, List.mem_map, List.mem_filter]
  constructor
  · rintro ⟨p, ⟨hp, hf⟩, rfl⟩
    exact ⟨p, hp, hf, rfl⟩
  · rintro ⟨p, hp, hf, rfl⟩
    exact ⟨p, ⟨hp, hf⟩, rfl⟩

/-- Claim C1 counterexample: at origin `(0, -1)` with the 1x1 block on the
empty grid, `canPlaceBlock` returns true, yet the placement loop records a
write at coordinate `(0, -1)`, whose column lies outside the 8x8 grid. -/
theorem c1_counterexample :
    canPlaceBlock oneByOne 0 (-1) createEmptyGrid = Except.ok true ∧
      ((0 : Int), (-1 : Int)) ∈ placedCells oneByOne.shape 0 (-1) ∧
      ¬(0 : Int) ≤ (-1 : Int) := by decide

/-- Claim C1 (amended): if `canPlaceBlock` returns true and the origin column
is nonnegative, then every coordinate written by the placement loop of
`handleDrop` lies inside the 8x8 grid and holds 0 in the prior grid.  Without
the nonnegative-column restriction the claim fails: `canPlaceBlock` performs
no lower-bound check, so a filled cell at a negative absolute column is
accepted and the corresponding write lands outside the grid. -/
theorem c1_place_safe (b : Block) (row col : Int) (g : Grid)
    (hg : gridWF g = true) (hcol : 0 ≤ col)
    (hok : canPlaceBlock b row col g = Except.ok true) :
    ∀ q ∈ placedCells b.shape row col,
      0 ≤ q.1 ∧ q.1 < (GRID_SIZE : Int) ∧ 0 ≤ q.2 ∧ q.2 < (GRID_SIZE : Int) ∧
        cellAtI g q.1 q.2 = 0 := by
  intro q hq
  rw [mem_placedCells] at hq
  obtain ⟨p, hp, hf, rfl⟩ := hq
  unfold canPlaceBlock at hok
  rw [checkCells_eq_ok_true hg] at hok
  obtain ⟨h1, h2, h3, h4⟩ := hok p hp hf
  have hc2 : 0 ≤ col + (p.2 : Int) := by omega
  exact ⟨h3, h1, hc2, h2, h4 hc2⟩

/-- Witness for the amended claim C1 at a concrete placement. -/
theorem c1_witness :
    gridWF createEmptyGrid = true ∧ (0 : Int) ≤ 3 ∧
      canPlaceBlock oneByOne 2 3 createEmptyGrid = Except.ok true ∧
      ∀ q ∈ placedCells oneByOne.shape 2 3,
        0 ≤ q.1 ∧ q.1 < (GRID_SIZE : Int) ∧ 0 ≤ q.2 ∧ q.2 < (GRID_SIZE : Int) ∧
          cellAtI createEmptyGrid q.1 q.2 = 0 :=
  ⟨by decide, by decide, by decide,
    c1_place_safe oneByOne 2 3 createEmptyGrid (by decide) (by decide) (by decide)⟩

/-- Claim C2 counterexample: the 1x1 block at origin `(0, -1)` on the empty
grid has its single filled cell at absolute column `-1`, yet `canPlaceBlock`
returns true — the claim says it must return false for a negative absolute
column index. -/
theorem c2_counterexample :
    shapeCell oneByOne.shape 0 0 ≠ 0 ∧ (-1 : Int) + (0 : Nat) < 0 ∧
      canPlaceBlock oneByOne 0 (-1) createEmptyGrid = Except.ok true := by decide

/-- Claim C2 (amended): for a rectangular shape, a well-formed grid, and a
nonnegative origin, `canPlaceBlock` returns true iff every filled shape cell
lands within `[0, GRID_SIZE)` on both axes on an empty grid cell.  The source
checks only the upper bounds, so the claimed equivalence fails for negative
origins: a filled cell at a negative absolute column is accepted (the
JavaScript cell read is falsy `undefined`), and a negative absolute row makes
the function throw rather than return false. -/
theorem c2_canPlace_characterization (b : Block) (row col : Nat) (g : Grid)
    (hs : shapeWF b.shape = true) (hg : gridWF g = true) :
    canPlaceBlock b row col g = Except.ok true ↔
      ∀ r c : Nat, shapeCell b.shape r c ≠ 0 →
        row + r < GRID_SIZE ∧ col + c < GRID_SIZE ∧ cellAt g (row + r) (col + c) = 0 := by
  have hGS : GRID_SIZE = 8 := rfl
  have hcast : ∀ a b d e : Nat,
      cellAtI g ((a : Int) + (b : Int)) ((d : Int) + (e : Int)) = cellAt g (a + b) (d + e) := by
    intro a b d e
    rw [← cellAtI_natCast, Nat.cast_add, Nat.cast_add]
  rw [canPlaceBlock_eq_ok_true hg hs]
  constructor
  · intro h r c hrc
    obtain ⟨h1, h2, -, h4⟩ := h r c hrc
    have h5 := h4 (by omega)
    rw [hcast row r col c] at h5
    exact ⟨by omega, by omega, h5⟩
  · intro h r c hrc
    obtain ⟨h1, h2, h3⟩ := h r c hrc
    refine ⟨by omega, by omega, by omega, fun _ => ?_⟩
    rw [hcast row r col c]
    exact h3

/-- Witness for the amended claim C2 at a concrete placement. -/
theorem c2_witness :
    shapeWF oneByOne.shape = true ∧ gridWF createEmptyGrid = true ∧
      (canPlaceBlock oneByOne 3 4 createEmptyGrid = Except.ok true ↔
        ∀ r c : Nat, shapeCell oneByOne.shape r c ≠ 0 →
          3 + r < GRID_SIZE ∧ 4 + c < GRID_SIZE ∧ cellAt createEmptyGrid (3 + r) (4 + c) = 0) :=
  ⟨by decide, by decide,
    c2_canPlace_characterization oneByOne 3 4 createEmptyGrid (by decide) (by decide)⟩

/-- Claim C3: `checkGameOver(grid, hand)` is true iff the hand is non-empty
and no piece of the hand can be placed (per `canPlaceBlock` truthiness) at
any of the 64 grid origins; in particular it is false for an empty hand. -/
theorem c3_terminal_iff (g : Grid) (hand : List Block) :
    checkGameOver g hand = true ↔
      hand ≠ [] ∧ ∀ b ∈ hand, ∀ r < GRID_SIZE, ∀ c < GRID_SIZE, canPlaceB b r c g = false := by
  unfold checkGameOver
  split
  · next h =>
    have he : hand = [] := List.length_eq_zero.mp h
    subst he
    simp
  · next h =>
    have hne : hand ≠ [] := by
      intro he
      rw [he] at h
      exact h rfl
    simp only [Bool.not_eq_true', List.any_eq_false, List.mem_range, Bool.not_eq_true]
    constructor
    · intro hall
      exact ⟨hne, fun b hb r hr c hc => hall b hb r hr c hc⟩
    · intro hall
      exact fun b hb r hr c hc => hall.2 b hb r hr c hc

theorem updateSH_fst (score : Nat) (h : Int) (pts : Nat) :
    (updateSH score h pts).1 = score + pts := rfl

theorem updateSH_snd (score : Nat) (h : Int) (pts : Nat) :
    (updateSH score h pts).2 = h + ((score + pts) / 500 : Nat) - ((score / 500 : Nat) : Int) := by
  have hmono : score / 500 ≤ (score + pts) / 500 :=
    Nat.div_le_div_right (Nat.le_add_right score pts)
  unfold updateSH
  dsimp only
  split
  · next hlt => omega
  · next hlt => omega

/-- Claim C4: a valid placement increases the score by exactly the number of
filled cells of the placed shape plus `10 * n^2`, where `n` is the number of
full rows plus full columns of the post-placement grid (not deduplicated). -/
theorem c4_score_increase (s : GameState) (b : Block) (row col : Nat) (fresh : List Block)
    (hcp : canPlaceB b row col s.grid = true) (hm : s.hammerMode = false)
    (hc : s.clearing = false) :
    (step s (Gesture.drop b row col fresh)).score =
      s.score + countFilled b.shape +
        10 * ((rowsToClear (placeGrid b row col s.grid)).length +
          (colsToClear (placeGrid b row col s.grid)).length) ^ 2 := by
  show (handleDrop b row col fresh s).score = _
  unfold handleDrop
  rw [if_neg (by simp [hcp, hm, hc])]
  dsimp only
  split
  · next hn =>
    rw [updateSH_fst, updateSH_fst]
    ring
  · next hn =>
    rw [updateSH_fst]
    have hn0 : (rowsToClear (placeGrid b row col s.grid)).length +
        (colsToClear (placeGrid b row col s.grid)).length = 0 := by omega
    rw [hn0]
    ring

/-- Witness for claim C4: completing row 0 of `demoState` with the 1x1 block
(one full line cleared). -/
theorem c4_witness :
    canPlaceB oneByOne 0 7 demoState.grid = true ∧ demoState.hammerMode = false ∧
      demoState.clearing = false ∧
      (step demoState (Gesture.drop oneByOne 0 7 [])).score =
        demoState.score + countFilled oneByOne.shape +
          10 * ((rowsToClear (placeGrid oneByOne 0 7 demoState.grid)).length +
            (colsToClear (placeGrid oneByOne 0 7 demoState.grid)).length) ^ 2 :=
  ⟨by decide, by decide, by decide,
    c4_score_increase demoState oneByOne 0 7 [] (by decide) (by decide) (by decide)⟩

theorem rowFullB_iff {row : List Nat} (hlen : row.length = 8) :
    rowFullB row = true ↔ ∀ j < 8, 0 < row[j]?.getD 0 := by
  unfold rowFullB
  rw [List.all_eq_true]
  constructor
  · intro h j hj
    have hjl : j < row.length := by omega
    rw [List.getElem?_eq_getElem hjl]
    simpa using h _ (List.getElem_mem hjl)
  · intro h x hx
    obtain ⟨j, hjl, hval⟩ := List.mem_iff_getElem.mp hx
    have hv := h j (by omega)
    rw [List.getElem?_eq_getElem hjl] at hv
    simp only [Option.getD_some] at hv
    rw [decide_eq_true_eq, ← hval]
    exact hv

theorem gridRow_len {g : Grid} (hg : gridWF g = true) {i : Nat} (hi : i < 8) :
    (g[i]?.getD []).length = 8 := by
  obtain ⟨hlen, hrows⟩ := gridWF_iff.mp hg
  have hgi : i < g.length := by omega
  simp only [List.getElem?_eq_getElem hgi, Option.getD_some]
  exact hrows _ (List.getElem_mem hgi)

theorem mem_rowsToClear {g : Grid} (hg : gridWF g = true) {i : Nat} :
    i ∈ rowsToClear g ↔ i < 8 ∧ ∀ j < 8, 0 < cellAt g i j := by
  unfold rowsToClear
  rw [List.mem_filter, List.mem_range]
  constructor
  · rintro ⟨hi, hfull⟩
    exact ⟨hi, (rowFullB_iff (gridRow_len hg hi)).mp hfull⟩
  · rintro ⟨hi, hfull⟩
    exact ⟨hi, (rowFullB_iff (gridRow_len hg hi)).mpr hfull⟩

theorem colFullB_iff {g : Grid} (hg : gridWF g = true) {i : Nat} :
    colFullB g i = true ↔ ∀ j < 8, 0 < cellAt g j i := by
  obtain ⟨hlen, hrows⟩ := gridWF_iff.mp hg
  unfold colFullB
  rw [List.all_eq_true]
  constructor
  · intro h j hj
    have hjl : j < g.length := by omega
    have hv := h _ (List.getElem_mem hjl)
    rw [decide_eq_true_eq] at hv
    unfold cellAt
    rw [List.getElem?_eq_getElem hjl]
    simpa using hv
  · intro h x hx
    obtain ⟨j, hjl, hval⟩ := List.mem_iff_getElem.mp hx
    have hv := h j (by omega)
    unfold cellAt at hv
    rw [List.getElem?_eq_getElem hjl] at hv
    simp only [Option.getD_some] at hv
    rw [decide_eq_true_eq, ← hval]
    exact hv

theorem mem_colsToClear {g : Grid} (hg : gridWF g = true) {i : Nat} :
    i ∈ colsToClear g ↔ i < 8 ∧ ∀ j < 8, 0 < cellAt g j i := by
  unfold colsToClear
  rw [List.mem_filter, List.mem_range]
  constructor
  · rintro ⟨hi, hfull⟩
    exact ⟨hi, (colFullB_iff hg).mp hfull⟩
  · rintro ⟨hi, hfull⟩
    exact ⟨hi, (colFullB_iff hg).mpr hfull⟩

theorem gridWF_set_zeros {g : Grid} (hg : gridWF g = true) (r : Nat) :
    gridWF (g.set r (List.replicate GRID_SIZE 0)) = true := by
  rw [gridWF_iff] at hg ⊢
  refine ⟨by rw [List.length_set]; exact hg.1, ?_⟩
  intro row hrow
  rcases List.mem_or_eq_of_mem_set hrow with h | h
  · exact hg.2 _ h
  · rw [h]
    simp [GRID_SIZE]

theorem gridWF_map_setcol {g : Grid} (hg : gridWF g = true) (c : Nat) :
    gridWF (g.map fun row => row.set c 0) = true := by
  rw [gridWF_iff] at hg ⊢
  refine ⟨by simpa using hg.1, ?_⟩
  intro row hrow
  rw [List.mem_map] at hrow
  obtain ⟨row0, hr0, rfl⟩ := hrow
  rw [List.length_set]
  exact hg.2 _ hr0

theorem cellAt_set_zeros {g : Grid} (hg : gridWF g = true) {r i j : Nat}
    (hi : i < 8) (hj : j < 8) :
    cellAt (g.set r (List.replicate GRID_SIZE 0)) i j =
      if i = r then 0 else cellAt g i j := by
  obtain ⟨hlen, hrows⟩ := gridWF_iff.mp hg
  unfold cellAt
  by_cases hir : i = r
  · subst hir
    rw [if_pos rfl, List.getElem?_set_self (by omega)]
    simp only [Option.getD_some, List.getElem?_replicate]
    rw [if_pos (show j < GRID_SIZE from hj)]
    rfl
  · rw [if_neg hir, List.getElem?_set_ne (fun h => hir h.symm)]

theorem cellAt_map_setcol {g : Grid} (hg : gridWF g = true) {c i j : Nat}
    (hi : i < 8) (hj : j < 8) :
    cellAt (g.map fun row => row.set c 0) i j =
      if j = c then 0 else cellAt g i j := by
  obtain ⟨hlen, hrows⟩ := gridWF_iff.mp hg
  unfold cellAt
  rw [List.getElem?_map]
  have hgi : i < g.length := by omega
  rw [List.getElem?_eq_getElem hgi]
  simp only [Option.map_some', Option.getD_some]
  by_cases hjc : j = c
  · subst hjc
    rw [if_pos rfl]
    have hjl : j < (g[i]).length := by
      rw [hrows _ (List.getElem_mem hgi)]
      omega
    rw [List.getElem?_set_self hjl]
    rfl
  · rw [if_neg hjc, List.getElem?_set_ne (fun h => hjc h.symm)]

theorem foldl_clearRows (rs : List Nat) (g : Grid) (hg : gridWF g = true) {i j : Nat}
    (hi : i < 8) (hj : j < 8) :
    gridWF (rs.foldl (fun acc r => acc.set r (List.replicate GRID_SIZE 0)) g) = true ∧
    cellAt (rs.foldl (fun acc r => acc.set r (List.replicate GRID_SIZE 0)) g) i j =
      if i ∈ rs then 0 else cellAt g i j := by
  induction rs generalizing g with
  | nil => simpa using hg
  | cons r rest ih =>
    simp only [List.foldl_cons]
    obtain ⟨hwf, hcell⟩ := ih (g.set r (List.replicate GRID_SIZE 0)) (gridWF_set_zeros hg r)
    refine ⟨hwf, ?_⟩
    rw [hcell, cellAt_set_zeros hg hi hj]
    by_cases h1 : i ∈ rest
    · simp [h1]
    · by_cases h2 : i = r
      · simp [h1, h2]
      · simp [h1, h2, List.mem_cons]

theorem foldl_clearCols (cs : List Nat) (g : Grid) (hg : gridWF g = true) {i j : Nat}
    (hi : i < 8) (hj : j < 8) :
    gridWF (cs.foldl (fun acc c => acc.map fun row => row.set c 0) g) = true ∧
    cellAt (cs.foldl (fun acc c => acc.map fun row => row.set c 0) g) i j =
      if j ∈ cs then 0 else cellAt g i j := by
  induction cs generalizing g with
  | nil => simpa using hg
  | cons c rest ih =>
    simp only [List.foldl_cons]
    obtain ⟨hwf, hcell⟩ := ih (g.map fun row => row.set c 0) (gridWF_map_setcol hg c)
    refine ⟨hwf, ?_⟩
    rw [hcell, cellAt_map_setcol hg hi hj]
    by_cases h1 : j ∈ rest
    · simp [h1]
    · by_cases h2 : j = c
      · simp [h1, h2]
      · simp [h1, h2, List.mem_cons]

theorem cellAt_clearLines {g : Grid} (hg : gridWF g = true) (rs cs : List Nat) {i j : Nat}
    (hi : i < 8) (hj : j < 8) :
    cellAt (clearLines g rs cs) i j =
      if i ∈ rs ∨ j ∈ cs then 0 else cellAt g i j := by
  unfold clearLines
  obtain ⟨hwf1, hcell1⟩ := foldl_clearRows rs g hg hi hj
  obtain ⟨-, hcell2⟩ := foldl_clearCols cs _ hwf1 hi hj
  rw [hcell2, hcell1]
  by_cases h1 : j ∈ cs
  · simp [h1]
  · by_cases h2 : i ∈ rs
    · simp [h1, h2]
    · simp [h1, h2]

/-- Claim C5: on a (well-formed) post-placement grid, a row index is
detected iff all 8 of its cells are non-zero (likewise columns), both sets
being read off the same grid, and the clearing step zeroes exactly the cells
of detected rows and columns, leaving every other cell unchanged. -/
theorem c5_detect_clear (g : Grid) (hg : gridWF g = true) :
    (∀ i < GRID_SIZE,
      (i ∈ rowsToClear g ↔ ∀ j < GRID_SIZE, cellAt g i j ≠ 0) ∧
      (i ∈ colsToClear g ↔ ∀ j < GRID_SIZE, cellAt g j i ≠ 0)) ∧
    ∀ i < GRID_SIZE, ∀ j < GRID_SIZE,
      cellAt (clearLines g (rowsToClear g) (colsToClear g)) i j =
        if i ∈ rowsToClear g ∨ j ∈ colsToClear g then 0 else cellAt g i j := by
  have hGS : GRID_SIZE = 8 := rfl
  constructor
  · intro i hi
    constructor
    · rw [mem_rowsToClear hg]
      constructor
      · intro h jj hjj
        have := h.2 jj (by omega)
        omega
      · intro h
        refine ⟨by omega, fun jj hjj => ?_⟩
        have := h jj (by omega)
        omega
    · rw [mem_colsToClear hg]
      constructor
      · intro h jj hjj
        have := h.2 jj (by omega)
        omega
      · intro h
        refine ⟨by omega, fun jj hjj => ?_⟩
        have := h jj (by omega)
        omega
  · intro i hi j hj
    exact cellAt_clearLines hg _ _ (by omega) (by omega)

/-- Witness for claim C5 on the concrete demo grid. -/
theorem c5_witness :
    gridWF rowSevenGrid = true ∧
      ((∀ i < GRID_SIZE,
        (i ∈ rowsToClear rowSevenGrid ↔ ∀ j < GRID_SIZE, cellAt rowSevenGrid i j ≠ 0) ∧
        (i ∈ colsToClear rowSevenGrid ↔ ∀ j < GRID_SIZE, cellAt rowSevenGrid j i ≠ 0)) ∧
      ∀ i < GRID_SIZE, ∀ j < GRID_SIZE,
        cellAt (clearLines rowSevenGrid (rowsToClear rowSevenGrid) (colsToClear rowSevenGrid)) i j =
          if i ∈ rowsToClear rowSevenGrid ∨ j ∈ colsToClear rowSevenGrid then 0
          else cellAt rowSevenGrid i j) :=
  ⟨by decide, c5_detect_clear rowSevenGrid (by decide)⟩

/-- Claim C6 counterexample: `overState` has the game-over flag set, a
placeable 1x1 block in hand, and inactive hammer mode; the drop handler
nonetheless performs the placement and changes the grid — `handleDrop`
never consults the game-over flag. -/
theorem c6_counterexample :
    overState.gameOver = true ∧
      (step overState (Gesture.drop oneByOne 2 2 [])).grid ≠ overState.grid := by decide

/-- Claim C6 (amended): the game-over flag is absorbing under every gesture
other than an explicit restart (the handlers only ever set it, never clear
it), and a restart from any state yields the fresh active state: empty grid,
score 0, the freshly drawn hand, hammer count 1, flag cleared.  The drop and
hammer handlers do not, however, reject gestures while the flag is set: a
drop of a placeable piece still mutates the grid (blocking is left to the
presentation overlay), as the counterexample shows. -/
theorem c6_lifecycle (s : GameState) (g : Gesture) (fresh : List Block) :
    (s.gameOver = true → (∀ f, g ≠ Gesture.restart f) → (step s g).gameOver = true) ∧
      step s (Gesture.restart fresh) = initState fresh ∧
      (initState fresh).grid = createEmptyGrid ∧ (initState fresh).score = 0 ∧
      (initState fresh).blocks = fresh ∧ (initState fresh).hammers = 1 ∧
      (initState fresh).gameOver = false ∧ (initState fresh).hammerMode = false := by
  refine ⟨?_, rfl, rfl, rfl, rfl, rfl, rfl, rfl⟩
  intro hover hnr
  cases g with
  | drop b row col f =>
    show (handleDrop b row col f s).gameOver = true
    unfold handleDrop
    split
    · exact hover
    · dsimp only
      rw [hover]
      rfl
  | hammerToggle =>
    show (handleHammerClick s).gameOver = true
    unfold handleHammerClick
    split
    · exact hover
    · exact hover
  | cellClick row col =>
    show (handleGridCellClick row col s).gameOver = true
    unfold handleGridCellClick
    split
    · exact hover
    · split
      · exact hover
      · exact hover
  | restart f => exact absurd rfl (hnr f)

/-- Witness for the amended claim C6 at a concrete over-state. -/
theorem c6_witness :
    overState.gameOver = true ∧
      (step overState Gesture.hammerToggle).gameOver = true ∧
      step overState (Gesture.restart [oneByOne]) = initState [oneByOne] :=
  ⟨rfl,
    (c6_lifecycle overState Gesture.hammerToggle [oneByOne]).1 rfl (fun f h => by cases h),
    (c6_lifecycle overState Gesture.hammerToggle [oneByOne]).2.1⟩

/-- Claim C9: invalid operations are no-ops — a drop whose placement check
fails leaves the state unchanged, a hammer toggle with zero hammers leaves
the state unchanged, and a restart is accepted from every state (yielding
the fresh initial state). -/
theorem c9_invalid_noop (s : GameState) (b : Block) (row col : Nat) (fresh : List Block) :
    (canPlaceB b row col s.grid = false → step s (Gesture.drop b row col fresh) = s) ∧
      (s.hammers = 0 → step s Gesture.hammerToggle = s) ∧
      step s (Gesture.restart fresh) = initState fresh := by
  refine ⟨?_, ?_, rfl⟩
  · intro hcp
    show handleDrop b row col fresh s = s
    unfold handleDrop
    rw [if_pos (by simp [hcp])]
  · intro hz
    show handleHammerClick s = s
    unfold handleHammerClick
    rw [if_neg (by omega)]

/-- Witness for claim C9: a 3x3 block does not fit at origin `(6,6)`, and
`zeroHammerState` has no hammers. -/
theorem c9_witness :
    canPlaceB threeByThree 6 6 zeroHammerState.grid = false ∧
      zeroHammerState.hammers = 0 ∧
      step zeroHammerState (Gesture.drop threeByThree 6 6 []) = zeroHammerState ∧
      step zeroHammerState Gesture.hammerToggle = zeroHammerState ∧
      step zeroHammerState (Gesture.restart [oneByOne]) = initState [oneByOne] :=
  ⟨by decide, rfl,
    (c9_invalid_noop zeroHammerState threeByThree 6 6 []).1 (by decide),
    (c9_invalid_noop zeroHammerState threeByThree 6 6 []).2.1 rfl,
    (c9_invalid_noop zeroHammerState threeByThree 6 6 [oneByOne]).2.2⟩

/-- Claim C10: while hammer mode is active a drop gesture performs no state
change at all, even if the dragged piece could legally be placed at the
target origin. -/
theorem c10_hammer_blocks_drop (s : GameState) (b : Block) (row col : Nat)
    (fresh : List Block) (hm : s.hammerMode = true) :
    step s (Gesture.drop b row col fresh) = s := by
  show handleDrop b row col fresh s = s
  unfold handleDrop
  rw [if_pos (by simp [hm])]

/-- Witness for claim C10: `hammerState` has hammer mode active and the 1x1
block placeable at `(0,7)`, yet the drop is a no-op. -/
theorem c10_witness :
    hammerState.hammerMode = true ∧ canPlaceB oneByOne 0 7 hammerState.grid = true ∧
      step hammerState (Gesture.drop oneByOne 0 7 []) = hammerState :=
  ⟨rfl, by decide, c10_hammer_blocks_drop hammerState oneByOne 0 7 [] rfl⟩

theorem cellAt_setCell_self {g : Grid} (hg : gridWF g = true) {r c : Nat}
    (hr : r < 8) (hc : c < 8) (v : Nat) : cellAt (setCell g r c v) r c = v := by
  obtain ⟨hlen, hrows⟩ := gridWF_iff.mp hg
  unfold setCell cellAt
  rw [List.getElem?_set_self (by omega)]
  simp only [Option.getD_some]
  rw [List.getElem?_set_self (by rw [gridRow_len hg hr]; omega)]
  rfl

theorem cellAt_setCell_ne {g : Grid} {r c i j : Nat} (v : Nat) (hne : i ≠ r ∨ j ≠ c) :
    cellAt (setCell g r c v) i j = cellAt g i j := by
  unfold setCell cellAt
  rcases hne with hne | hne
  · rw [List.getElem?_set_ne (Ne.symm hne)]
  · rw [List.getElem?_set]
    by_cases hri : r = i
    · rw [if_pos hri]
      by_cases hrl : r < g.length
      · rw [if_pos hrl]
        simp only [Option.getD_some]
        rw [List.getElem?_set_ne (Ne.symm hne), hri]
      · rw [if_neg hrl, ← hri, List.getElem?_eq_none_iff.mpr (show g.length ≤ r by omega)]
    · rw [if_neg hri]

/-- Claim C8: applying the hammer while hammer mode is active zeroes exactly
the clicked occupied cell, decrements the hammer count by one, and
deactivates hammer mode, with every other grid cell and the score, hand, and
game-over flag untouched (so no line-clear or terminal re-evaluation can
occur); on an empty cell the whole state is unchanged except that hammer
mode deactivates. -/
theorem c8_hammer_frame (s : GameState) (row col : Nat) (hm : s.hammerMode = true)
    (hr : row < GRID_SIZE) (hc : col < GRID_SIZE) (hwf : gridWF s.grid = true) :
    (0 < cellAt s.grid row col →
      cellAt (step s (Gesture.cellClick row col)).grid row col = 0 ∧
      (∀ i j : Nat, i ≠ row ∨ j ≠ col →
        cellAt (step s (Gesture.cellClick row col)).grid i j = cellAt s.grid i j) ∧
      (step s (Gesture.cellClick row col)).hammers = s.hammers - 1 ∧
      (step s (Gesture.cellClick row col)).hammerMode = false ∧
      (step s (Gesture.cellClick row col)).score = s.score ∧
      (step s (Gesture.cellClick row col)).blocks = s.blocks ∧
      (step s (Gesture.cellClick row col)).gameOver = s.gameOver) ∧
    (cellAt s.grid row col = 0 →
      step s (Gesture.cellClick row col) = { s with hammerMode := false }) := by
  have hGS : GRID_SIZE = 8 := rfl
  constructor
  · intro hpos
    have hstep : step s (Gesture.cellClick row col) =
        { s with grid := setCell s.grid row col 0, hammers := s.hammers - 1,
                 hammerMode := false } := by
      show handleGridCellClick row col s = _
      unfold handleGridCellClick
      rw [if_pos (by simp [hm, hpos])]
    rw [hstep]
    refine ⟨?_, ?_, rfl, rfl, rfl, rfl, rfl⟩
    · exact cellAt_setCell_self hwf (by omega) (by omega) 0
    · intro i j hne
      exact cellAt_setCell_ne 0 hne
  · intro hzero
    show handleGridCellClick row col s = _
    unfold handleGridCellClick
    rw [if_neg (by simp [hzero]), if_pos hm]

/-- Witness for claim C8: hammering the occupied cell `(0,0)` of
`hammerState`. -/
theorem c8_witness :
    hammerState.hammerMode = true ∧ 0 < cellAt hammerState.grid 0 0 ∧
      gridWF hammerState.grid = true ∧
      cellAt (step hammerState (Gesture.cellClick 0 0)).grid 0 0 = 0 ∧
      (step hammerState (Gesture.cellClick 0 0)).hammers = hammerState.hammers - 1 ∧
      (step hammerState (Gesture.cellClick 0 0)).hammerMode = false ∧
      (step hammerState (Gesture.cellClick 0 0)).score = hammerState.score :=
  have h := (c8_hammer_frame hammerState 0 0 rfl (by decide) (by decide) (by decide)).1
    (by decide)
  ⟨rfl, by decide, by decide, h.1, h.2.2.1, h.2.2.2.1, h.2.2.2.2.1⟩

theorem updateSH_ge (sc : Nat) (h : Int) (p : Nat) : h ≤ (updateSH sc h p).2 := by
  rw [updateSH_snd]
  have h2 : sc / 500 ≤ (sc + p) / 500 := Nat.div_le_div_right (Nat.le_add_right sc p)
  omega

/-- Auxiliary invariant: in every reachable state the hammer count is
nonnegative, and at least 1 whenever hammer mode is active (hammer mode can
only be entered while `hammers > 0`, and no hammer is spent while it stays
active). -/
theorem hammer_inv_aux {s : GameState} (h : Reachable s) :
    0 ≤ s.hammers ∧ (s.hammerMode = true → 1 ≤ s.hammers) := by
  induction h with
  | init fresh =>
    constructor
    · show (0 : Int) ≤ 1
      norm_num
    · intro _
      show (1 : Int) ≤ 1
      norm_num
  | step s g hs ih =>
    obtain ⟨h0, h1⟩ := ih
    cases g with
    | drop b row col fresh =>
      show 0 ≤ (handleDrop b row col fresh s).hammers ∧
        ((handleDrop b row col fresh s).hammerMode = true →
          1 ≤ (handleDrop b row col fresh s).hammers)
      unfold handleDrop
      split
      · exact ⟨h0, h1⟩
      · next hcond =>
        have hmode : s.hammerMode = false := by
          by_contra hh
          rw [Bool.not_eq_false] at hh
          exact hcond (by rw [hh]; simp)
        dsimp only
        constructor
        · have g1 : s.hammers ≤ (updateSH s.score s.hammers (countFilled b.shape)).2 :=
            updateSH_ge _ _ _
          split
          · exact le_trans h0 (le_trans g1 (updateSH_ge _ _ _))
          · exact le_trans h0 g1
        · intro hmm
          rw [hmode] at hmm
          exact absurd hmm Bool.false_ne_true
    | hammerToggle =>
      show 0 ≤ (handleHammerClick s).hammers ∧
        ((handleHammerClick s).hammerMode = true → 1 ≤ (handleHammerClick s).hammers)
      unfold handleHammerClick
      split
      · next hpos => exact ⟨h0, fun _ => show (1 : Int) ≤ s.hammers by omega⟩
      · exact ⟨h0, h1⟩
    | cellClick row col =>
      show 0 ≤ (handleGridCellClick row col s).hammers ∧
        ((handleGridCellClick row col s).hammerMode = true →
          1 ≤ (handleGridCellClick row col s).hammers)
      unfold handleGridCellClick
      split
      · next hcond =>
        rw [Bool.and_eq_true] at hcond
        have hge := h1 hcond.1
        exact ⟨show (0 : Int) ≤ s.hammers - 1 by omega,
          fun hmm => absurd hmm Bool.false_ne_true⟩
      · split
        · exact ⟨h0, fun hmm => absurd hmm Bool.false_ne_true⟩
        · exact ⟨h0, h1⟩
    | restart fresh =>
      constructor
      · show (0 : Int) ≤ 1
        norm_num
      · intro _
        show (1 : Int) ≤ 1
        norm_num

/-- Claim C7: the hammer count starts at 1, is nonnegative in every
reachable state, and — apart from the restart, which reinitializes it —
changes in exactly two ways: a drop adds one hammer per multiple of 500
crossed by the cumulative score, a toggle changes nothing, and a cell click
subtracts exactly 1 when it is a destructive hammer use (hammer mode active
on an occupied cell) and otherwise changes nothing. -/
theorem c7_hammer_rules :
    (∀ fresh, (initState fresh).hammers = 1) ∧
    (∀ s, Reachable s → 0 ≤ s.hammers) ∧
    (∀ s b row col fresh,
      (step s (Gesture.drop b row col fresh)).hammers =
        s.hammers + (((step s (Gesture.drop b row col fresh)).score / 500 : Nat) : Int) -
          ((s.score / 500 : Nat) : Int)) ∧
    (∀ s, (step s Gesture.hammerToggle).hammers = s.hammers) ∧
    (∀ s row col,
      (step s (Gesture.cellClick row col)).hammers =
        s.hammers - (if s.hammerMode = true ∧ 0 < cellAt s.grid row col then 1 else 0)) := by
  refine ⟨fun fresh => rfl, fun s h => (hammer_inv_aux h).1, ?_, ?_, ?_⟩
  · intro s b row col fresh
    show (handleDrop b row col fresh s).hammers =
      s.hammers + (((handleDrop b row col fresh s).score / 500 : Nat) : Int) -
        ((s.score / 500 : Nat) : Int)
    unfold handleDrop
    split
    · omega
    · dsimp only
      split
      · simp only [updateSH_fst, updateSH_snd]
        have h1 : s.score / 500 ≤ (s.score + countFilled b.shape) / 500 :=
          Nat.div_le_div_right (Nat.le_add_right _ _)
        omega
      · simp only [updateSH_fst, updateSH_snd]
  · intro s
    show (handleHammerClick s).hammers = s.hammers
    unfold handleHammerClick
    split
    · rfl
    · rfl
  · intro s row col
    show (handleGridCellClick row col s).hammers =
      s.hammers - (if s.hammerMode = true ∧ 0 < cellAt s.grid row col then 1 else 0)
    unfold handleGridCellClick
    split
    · next hcond =>
      rw [Bool.and_eq_true, decide_eq_true_eq] at hcond
      rw [if_pos hcond]
    · next hcond =>
      have hno : ¬(s.hammerMode = true ∧ 0 < cellAt s.grid row col) := by
        intro hh
        exact hcond (by simp [hh.1, hh.2])
      rw [if_neg hno]
      split
      · show s.hammers = s.hammers - 0
        omega
      · show s.hammers = s.hammers - 0
        omega

/-- Witness for claim C7 at concrete states. -/
theorem c7_witness :
    (initState [oneByOne]).hammers = 1 ∧ 0 ≤ (initState [oneByOne]).hammers ∧
      (step demoState Gesture.hammerToggle).hammers = demoState.hammers :=
  ⟨c7_hammer_rules.1 [oneByOne], c7_hammer_rules.2.1 _ (Reachable.init [oneByOne]),
    c7_hammer_rules.2.2.2.1 demoState⟩

/-- Witness instantiating claim C3 at a concrete grid and hand. -/
theorem c3_witness :
    checkGameOver createEmptyGrid [oneByOne] = true ↔
      ([oneByOne] ≠ ([] : List Block) ∧ ∀ b ∈ [oneByOne], ∀ r < GRID_SIZE, ∀ c < GRID_SIZE,
        canPlaceB b r c createEmptyGrid = false) :=
  c3_terminal_iff createEmptyGrid [oneByOne]
